import Mathlib

/-!
# vault-kubernetes-authenticator: a verification development of `main.go`

The program reads a service-account JWT, builds a TLS trust pool from the
environment (`rootCAs`), posts one login request to Vault (`authenticate`) and
stores the returned token and accessor (`saveToken`, `saveAccessor`).

The Go functions of `main.go` are embedded as pure Lean functions.  Everything
the program obtains from outside (environment variables, the file system, the
X.509/PEM parser, the network) is a field of `World`; package-level variables
are the fields of `Config`.  The behaviour of the Go standard library that the
program relies on (`filepath.Walk`, `x509.CertPool`, `encoding/json`,
`strconv.ParseBool`, `fmt.Sprintf`) is written out as Lean definitions next to
the functions that call it.
-/

namespace VaultAuth

/-! ## Errors and results -/

/-- Errors reported by `encoding/json` while decoding the login response. -/
inductive JSONError where
  /-- The stream ended before any value started (`io.EOF`). -/
  | eof
  /-- The stream ended inside a value (`io.ErrUnexpectedEOF`). -/
  | unexpectedEOF
  /-- A `*json.SyntaxError`; the text says what the scanner was doing. -/
  | syntaxError (context : String)
  /-- A `*json.UnmarshalTypeError`: a JSON value of kind `value` met a Go
  target of another type. -/
  | unmarshalType (value : String)
  deriving DecidableEq, Repr

/-- An `*http.Response` as far as `authenticate` looks at it: the status code,
the body that the body stream delivers, and the text `fmt` prints for the
response value under `%#v`. -/
structure Response where
  statusCode : Nat
  body : String
  goSyntax : String
  deriving DecidableEq, Repr

/-- Go `error` values built or passed on by the program. -/
inductive GoError where
  /-- From `errors.New(msg)` or `fmt.Errorf(msg)` without arguments. -/
  | new (msg : String)
  /-- From `errors.Wrap(cause, msg)` and `errors.Wrapf`. -/
  | wrap (cause : GoError) (msg : String)
  /-- An error produced by the operating system or a library. -/
  | sys (msg : String)
  /-- An error produced by the JSON decoder. -/
  | json (e : JSONError)
  /-- From `fmt.Errorf("failed to get successful response: %#v, %s", resp, body)`. -/
  | badStatus (resp : Response) (body : String)
  deriving DecidableEq, Repr

/-- What a JSON decoding error prints; only the kind of error is rendered. -/
def JSONError.message : JSONError → String
  | .eof => "EOF"
  | .unexpectedEOF => "unexpected EOF"
  | .syntaxError ctx => "invalid character " ++ ctx
  | .unmarshalType v => "json: cannot unmarshal " ++ v ++ " into Go value"

/-- The text of `err.Error()`. -/
def GoError.message : GoError → String
  | .new msg => msg
  | .wrap cause msg => msg ++ ": " ++ cause.message
  | .sys msg => msg
  | .json e => e.message
  | .badStatus resp body =>
      "failed to get successful response: " ++ resp.goSyntax ++ ", " ++ body

/-- The result of a Go call that may return a value, return an error, or
panic at run time. -/
inductive Outcome (α : Type) where
  | ok (a : α)
  | error (e : GoError)
  | panicked (msg : String)
  deriving DecidableEq, Repr

/-! ## Configuration and the outside world -/

/-- The package-level variables of `main.go`. -/
structure Config where
  vaultAddr : String := ""
  vaultCaPem : String := ""
  vaultCaCert : String := ""
  vaultCaPath : String := ""
  vaultSkipVerify : Bool := false
  vaultServerName : String := ""
  vaultK8SMountPath : String := ""
  deriving DecidableEq, Repr

/-- A parsed certificate, identified by its raw DER bytes. -/
abbrev Certificate := String

/-- An `x509.CertPool`: the certificates in the order they were added.  The
pool never holds the same certificate twice (`addCert`). -/
abbrev CertPool := List Certificate

mutual
/-- What `os.Lstat` and `readDirNames` report about a path and what lies
below it. -/
inductive FSNode where
  /-- The path exists and is not a directory. -/
  | file
  /-- A directory whose listing succeeds; the entries are in the order
  `readDirNames` returns them (sorted by name). -/
  | dir (entries : FSEntries)
  /-- A directory whose listing fails with `e`. -/
  | unreadableDir (e : GoError)
  /-- The call of `os.Lstat` on the path fails with `e`. -/
  | noStat (e : GoError)
/-- The entries of a directory. -/
inductive FSEntries where
  | nil
  | cons (name : String) (node : FSNode) (rest : FSEntries)
end

/-- A `tls.Config` as far as `authenticate` sets it; unset fields have Go's
zero value. -/
structure TLSConfig where
  minVersion : Nat := 0
  rootCAs : Option CertPool := none
  insecureSkipVerify : Bool := false
  serverName : String := ""
  deriving DecidableEq, Repr

/-- An `*http.Request` as built by `authenticate`. -/
structure Request where
  method : String
  url : String
  contentType : String
  body : String
  deriving DecidableEq, Repr

/-- Everything the program obtains from outside the process. -/
structure World where
  /-- The value of `os.Getenv`. -/
  getenv : String → String
  /-- The value of `ioutil.ReadFile`. -/
  readFile : String → Except GoError String
  /-- The outcome of `ioutil.WriteFile(dest, data, perm)`. -/
  writeFile : String → String → Nat → Except GoError Unit
  /-- What `os.Lstat` finds at a path, with the tree below it. -/
  lstat : String → FSNode
  /-- The value of `filepath.Join(dir, name)`. -/
  join : String → String → String
  /-- The certificates that `AppendCertsFromPEM` parses out of a buffer, in
  the order of their PEM blocks. -/
  pemCerts : String → List Certificate
  /-- The value of `x509.SystemCertPool()`. -/
  systemCertPool : Except GoError CertPool
  /-- The error of `http2.ConfigureTransport`, if any. -/
  configureTransport : TLSConfig → Option GoError
  /-- The error of `http.NewRequest` for a method and a URL, if any. -/
  newRequestError : String → String → Option GoError
  /-- The outcome of `client.Do(req)` over a transport with the given TLS
  configuration. -/
  roundTrip : TLSConfig → Request → Except GoError Response

/-! ## Trust anchors: `rootCAs`, `loadCert`, `loadCertFile`, `loadCertFolder` -/

/-- The method `(*x509.CertPool).AddCert`: the pool first checks "that the
certificate isn't being added twice", so a certificate already in the pool is
not added again. -/
def addCert (pool : CertPool) (c : Certificate) : CertPool :=
  if c ∈ pool then pool else pool ++ [c]

/-- The method `(*x509.CertPool).AppendCertsFromPEM`: every certificate parsed
from the buffer is added; the flag says whether at least one was parsed. -/
def appendCertsFromPEM (w : World) (pool : CertPool) (pem : String) :
    CertPool × Bool :=
  ((w.pemCerts pem).foldl addCert pool, !(w.pemCerts pem).isEmpty)

/-- The function `loadCert` of `main.go`; the returned pool is the state of
`pool` after the call. -/
def loadCert (w : World) (pool : CertPool) (pem : String) :
    Except GoError CertPool :=
  match appendCertsFromPEM w pool pem with
  | (pool', ok) =>
    if !ok then .error (.new "failed to parse PEM") else .ok pool'

/-- The function `loadCertFile` of `main.go`. -/
def loadCertFile (w : World) (pool : CertPool) (p : String) :
    Except GoError CertPool :=
  match w.readFile p with
  | .error err => .error (.wrap err "failed to read CA file from disk")
  | .ok pem =>
    match loadCert w pool pem with
    | .error err => .error (.wrap err ("failed to load CA at " ++ p))
    | .ok pool' => .ok pool'

/-- The callback that `loadCertFolder` hands to `filepath.Walk`.  `isDir` is
`info.IsDir()`; it is only looked at when `err` is nil. -/
def walkFn (w : World) (pool : CertPool) (path : String) (isDir : Bool)
    (err : Option GoError) : Except GoError CertPool :=
  match err with
  | some e => .error e
  | none => if isDir then .ok pool else loadCertFile w pool path

mutual
/-- The unexported `walk` of `path/filepath`, with the callback of
`loadCertFolder`: a non-directory is handed to the callback; a directory is
listed, handed to the callback together with the listing error, and then its
entries are walked in order. -/
def walk (w : World) (pool : CertPool) (path : String) :
    FSNode → Except GoError CertPool
  | .file => walkFn w pool path false none
  | .noStat e => walkFn w pool path false (some e)
  | .unreadableDir e => walkFn w pool path true (some e)
  | .dir entries =>
    match walkFn w pool path true none with
    | .error e => .error e
    | .ok pool' => walkEntries w pool' path entries
/-- The loop of `walk` over the names of a directory. -/
def walkEntries (w : World) (pool : CertPool) (path : String) :
    FSEntries → Except GoError CertPool
  | .nil => .ok pool
  | .cons name node rest =>
    match walk w pool (w.join path name) node with
    | .error e => .error e
    | .ok pool' => walkEntries w pool' path rest
end

/-- The function `filepath.Walk` with the callback of `loadCertFolder`. -/
def filepathWalk (w : World) (pool : CertPool) (root : String) :
    Except GoError CertPool :=
  walk w pool root (w.lstat root)

/-- The function `loadCertFolder` of `main.go`. -/
def loadCertFolder (w : World) (pool : CertPool) (p : String) :
    Except GoError CertPool :=
  match filepathWalk w pool p with
  | .error err => .error (.wrap err ("failed to load CAs at " ++ p))
  | .ok pool' => .ok pool'

/-- The function `x509.NewCertPool`. -/
def newCertPool : CertPool := []

/-- The function `rootCAs` of `main.go`.  An error result stands for the Go
result `(nil, err)`. -/
def rootCAs (w : World) (cfg : Config) : Except GoError CertPool :=
  if cfg.vaultCaPem != "" then
    match loadCert w newCertPool cfg.vaultCaPem with
    | .error err => .error err
    | .ok pool => .ok pool
  else if cfg.vaultCaCert != "" then
    match loadCertFile w newCertPool cfg.vaultCaCert with
    | .error err => .error err
    | .ok pool => .ok pool
  else if cfg.vaultCaPath != "" then
    match loadCertFolder w newCertPool cfg.vaultCaPath with
    | .error err => .error err
    | .ok pool => .ok pool
  else
    match w.systemCertPool with
    | .error err => .error (.wrap err "failed to load system certs")
    | .ok pool => .ok pool

/-! ## JSON: the scanner of `encoding/json`

`json.NewDecoder(r).Decode(&s)` first reads one complete JSON value from the
stream with the byte-by-byte scanner of `encoding/json` and then stores that
value into `s`.  The scanner is written out below as a state machine over the
characters of the body; like the Go scanner it stops as soon as the first
value is complete and does not look at what follows it.  Bodies are Unicode
text, i.e. valid UTF-8. -/

/-- A JSON value.  Numbers keep their literal text; strings are unquoted. -/
inductive JSON where
  | null
  | bool (b : Bool)
  | num (literal : String)
  | str (s : String)
  | arr (elems : List JSON)
  | obj (members : List (String × JSON))

/-- The containers the scanner is inside of, innermost first, each with what
has been read of it so far (in reverse order). -/
inductive Frame where
  /-- In an array. -/
  | arr (done : List JSON)
  /-- In an object, before or inside a key. -/
  | objKey (done : List (String × JSON))
  /-- In an object, after the key `key`, before the colon. -/
  | objColon (done : List (String × JSON)) (key : String)
  /-- In an object, after the colon, before or inside the value of `key`. -/
  | objValue (done : List (String × JSON)) (key : String)
  /-- In an object, after a complete member. -/
  | objNext (done : List (String × JSON))

/-- The step functions of the scanner.  String and number states carry the
raw text read so far, in reverse order. -/
inductive Mode where
  | beginValue
  | beginValueOrEmpty
  | beginStringOrEmpty
  | beginString
  | endValue
  | inString (raw : List Char)
  | inStringEsc (raw : List Char)
  | inStringEscU (raw : List Char) (digits : Nat)
  | neg (raw : List Char)
  | one (raw : List Char)
  | zero (raw : List Char)
  | dot (raw : List Char)
  | dot0 (raw : List Char)
  | exp (raw : List Char)
  | expSign (raw : List Char)
  | exp0 (raw : List Char)
  | literal (expected : List Char) (v : JSON)

/-- The result of feeding one character to the scanner. -/
inductive Step where
  /-- Go on in the given state. -/
  | more (m : Mode) (stack : List Frame)
  /-- The top-level value ends with this character. -/
  | done (v : JSON)
  /-- The top-level value ended before this character. -/
  | doneBefore (v : JSON)
  /-- A scanner error. -/
  | fail (context : String)

/-- The function `isSpace` of the scanner. -/
def isSpace (c : Char) : Bool :=
  c == ' ' || c == '\t' || c == '\r' || c == '\n'

/-- A decimal digit. -/
def isDigit (c : Char) : Bool := '0' ≤ c && c ≤ '9'

/-- The value of a hexadecimal digit. -/
def hexValue (c : Char) : Option Nat :=
  if '0' ≤ c && c ≤ '9' then some (c.toNat - 48)
  else if 'a' ≤ c && c ≤ 'f' then some (c.toNat - 87)
  else if 'A' ≤ c && c ≤ 'F' then some (c.toNat - 55)
  else none

/-- The function `getu4`: the code unit of a leading `\uXXXX`, if there is one. -/
def getu4 : List Char → Option Nat
  | '\\' :: 'u' :: a :: b :: c :: d :: _ =>
    match hexValue a, hexValue b, hexValue c, hexValue d with
    | some x, some y, some z, some t => some (x * 4096 + y * 256 + z * 16 + t)
    | _, _, _, _ => none
  | _ => none

/-- The rune `unicode.ReplacementChar`. -/
def replacementChar : Char := Char.ofNat 0xFFFD

/-- The function `utf16.IsSurrogate`. -/
def isSurrogate (r : Nat) : Bool := 0xD800 ≤ r && r < 0xE000

/-- The function `utf16.DecodeRune` on a first code unit and the result of
`getu4` for the second; `none` stands for the replacement character. -/
def decodeSurrogates (r1 : Nat) (r2 : Option Nat) : Option Char :=
  match r2 with
  | none => none
  | some r2 =>
    if 0xD800 ≤ r1 && r1 < 0xDC00 && 0xDC00 ≤ r2 && r2 < 0xE000 then
      some (Char.ofNat ((r1 - 0xD800) * 1024 + (r2 - 0xDC00) + 0x10000))
    else none

/-- The character a one-letter escape stands for in `unquoteBytes`. -/
def escapeChar (e : Char) : Option Char :=
  if e == '"' then some '"'
  else if e == '\\' then some '\\'
  else if e == '/' then some '/'
  else if e == Char.ofNat 39 then some (Char.ofNat 39)
  else if e == 'b' then some (Char.ofNat 8)
  else if e == 'f' then some (Char.ofNat 12)
  else if e == 'n' then some '\n'
  else if e == 'r' then some '\r'
  else if e == 't' then some '\t'
  else none

/-- The loop of `unquoteBytes` over the text between the quotes.  `skip`
characters are passed over first: they belong to an escape already decoded. -/
def unquoteAux : Nat → List Char → Option (List Char)
  | _, [] => some []
  | skip + 1, _ :: cs => unquoteAux skip cs
  | 0, c :: cs =>
    if c == '\\' then
      match cs with
      | [] => none
      | e :: cs' =>
        if e == 'u' then
          match getu4 (c :: e :: cs') with
          | none => none
          | some rr =>
            if isSurrogate rr then
              match decodeSurrogates rr (getu4 (cs'.drop 4)) with
              | some dec => (unquoteAux 10 cs').map (dec :: ·)
              | none => (unquoteAux 4 cs').map (replacementChar :: ·)
            else (unquoteAux 4 cs').map (Char.ofNat rr :: ·)
        else
          match escapeChar e with
          | none => none
          | some x => (unquoteAux 0 cs').map (x :: ·)
    else if c == '"' || c.toNat < 0x20 then none
    else (unquoteAux 0 cs).map (c :: ·)

/-- The function `unquote` on the raw text between the quotes of a string
literal. -/
def unquote (raw : List Char) : Option String :=
  (unquoteAux 0 raw).map String.mk

/-- The constant `maxNestingDepth` of the scanner. -/
def maxNestingDepth : Nat := 10000

/-- The method `pushParseState`: enter a container. -/
def pushFrame (f : Frame) (stack : List Frame) (next : Mode) : Step :=
  if stack.length + 1 ≤ maxNestingDepth then .more next (f :: stack)
  else .fail "exceeded max depth"

/-- Attach a complete value to the innermost container. -/
def attach (v : JSON) : List Frame → Option (List Frame)
  | .arr done :: stack => some (.arr (v :: done) :: stack)
  | .objValue done key :: stack => some (.objNext ((key, v) :: done) :: stack)
  | _ => none

/-- A value ends with the current character: at top level the scan is over,
inside a container the scanner goes on in `stateEndValue`. -/
def finish (v : JSON) (stack : List Frame) : Step :=
  match stack with
  | [] => .done v
  | _ =>
    match attach v stack with
    | some stack' => .more .endValue stack'
    | none => .fail "scanner in an impossible state"

/-- A string literal ends with the current character: it is an object key or
a value. -/
def finishString (raw : List Char) (stack : List Frame) : Step :=
  match unquote raw.reverse with
  | none => .fail "in string literal"
  | some s =>
    match stack with
    | .objKey done :: stack' => .more .endValue (.objColon done s :: stack')
    | _ => finish (.str s) stack

/-- The step function `stateEndValue` inside a container. -/
def stateEndValue (stack : List Frame) (c : Char) : Step :=
  if isSpace c then .more .endValue stack
  else
    match stack with
    | .objColon done key :: stack' =>
      if c == ':' then .more .beginValue (.objValue done key :: stack')
      else .fail "after object key"
    | .objNext done :: stack' =>
      if c == ',' then .more .beginString (.objKey done :: stack')
      else if c == '}' then finish (.obj done.reverse) stack'
      else .fail "after object key:value pair"
    | .arr done :: stack' =>
      if c == ',' then .more .beginValue (.arr done :: stack')
      else if c == ']' then finish (.arr done.reverse) stack'
      else .fail "after array element"
    | _ => .fail "scanner in an impossible state"

/-- A number literal ended before the current character, which is then
handled by `stateEndValue`. -/
def finishNumber (raw : List Char) (stack : List Frame) (c : Char) : Step :=
  match stack with
  | [] => .doneBefore (.num (String.mk raw.reverse))
  | _ =>
    match attach (.num (String.mk raw.reverse)) stack with
    | some stack' => stateEndValue stack' c
    | none => .fail "scanner in an impossible state"

/-- The step function `stateBeginValue`. -/
def stateBeginValue (stack : List Frame) (c : Char) : Step :=
  if isSpace c then .more .beginValue stack
  else if c == '{' then pushFrame (.objKey []) stack .beginStringOrEmpty
  else if c == '[' then pushFrame (.arr []) stack .beginValueOrEmpty
  else if c == '"' then .more (.inString []) stack
  else if c == '-' then .more (.neg [c]) stack
  else if c == '0' then .more (.zero [c]) stack
  else if c == 't' then .more (.literal ['r', 'u', 'e'] (.bool true)) stack
  else if c == 'f' then .more (.literal ['a', 'l', 's', 'e'] (.bool false)) stack
  else if c == 'n' then .more (.literal ['u', 'l', 'l'] .null) stack
  else if '1' ≤ c && c ≤ '9' then .more (.one [c]) stack
  else .fail "looking for beginning of value"

/-- The step function `stateBeginString`. -/
def stateBeginString (stack : List Frame) (c : Char) : Step :=
  if isSpace c then .more .beginString stack
  else if c == '"' then .more (.inString []) stack
  else .fail "looking for beginning of object key string"

/-- The step function `state0`, also the end of `state1`. -/
def state0 (raw : List Char) (stack : List Frame) (c : Char) : Step :=
  if c == '.' then .more (.dot (c :: raw)) stack
  else if c == 'e' || c == 'E' then .more (.exp (c :: raw)) stack
  else finishNumber raw stack c

/-- The step function `stateESign`. -/
def stateESign (raw : List Char) (stack : List Frame) (c : Char) : Step :=
  if isDigit c then .more (.exp0 (c :: raw)) stack
  else .fail "in exponent of numeric literal"

/-- One step of the scanner: the current step function applied to `c`. -/
def step (m : Mode) (stack : List Frame) (c : Char) : Step :=
  match m with
  | .beginValue => stateBeginValue stack c
  | .beginValueOrEmpty =>
    if isSpace c then .more .beginValueOrEmpty stack
    else if c == ']' then
      match stack with
      | .arr done :: stack' => finish (.arr done.reverse) stack'
      | _ => .fail "scanner in an impossible state"
    else stateBeginValue stack c
  | .beginStringOrEmpty =>
    if isSpace c then .more .beginStringOrEmpty stack
    else if c == '}' then
      match stack with
      | .objKey done :: stack' => finish (.obj done.reverse) stack'
      | _ => .fail "scanner in an impossible state"
    else stateBeginString stack c
  | .beginString => stateBeginString stack c
  | .endValue => stateEndValue stack c
  | .inString raw =>
    if c == '"' then finishString raw stack
    else if c == '\\' then .more (.inStringEsc (c :: raw)) stack
    else if c.toNat < 0x20 then .fail "in string literal"
    else .more (.inString (c :: raw)) stack
  | .inStringEsc raw =>
    if c == 'b' || c == 'f' || c == 'n' || c == 'r' || c == 't' || c == '\\'
        || c == '/' || c == '"' then .more (.inString (c :: raw)) stack
    else if c == 'u' then .more (.inStringEscU (c :: raw) 0) stack
    else .fail "in string escape code"
  | .inStringEscU raw digits =>
    if (hexValue c).isSome then
      if digits < 3 then .more (.inStringEscU (c :: raw) (digits + 1)) stack
      else .more (.inString (c :: raw)) stack
    else .fail "in \\u hexadecimal character escape"
  | .neg raw =>
    if c == '0' then .more (.zero (c :: raw)) stack
    else if '1' ≤ c && c ≤ '9' then .more (.one (c :: raw)) stack
    else .fail "in numeric literal"
  | .one raw =>
    if isDigit c then .more (.one (c :: raw)) stack else state0 raw stack c
  | .zero raw => state0 raw stack c
  | .dot raw =>
    if isDigit c then .more (.dot0 (c :: raw)) stack
    else .fail "after decimal point in numeric literal"
  | .dot0 raw =>
    if isDigit c then .more (.dot0 (c :: raw)) stack
    else if c == 'e' || c == 'E' then .more (.exp (c :: raw)) stack
    else finishNumber raw stack c
  | .exp raw =>
    if c == '+' || c == '-' then .more (.expSign (c :: raw)) stack
    else stateESign raw stack c
  | .expSign raw => stateESign raw stack c
  | .exp0 raw =>
    if isDigit c then .more (.exp0 (c :: raw)) stack
    else finishNumber raw stack c
  | .literal expected v =>
    match expected with
    | [] => .fail "scanner in an impossible state"
    | [x] => if c == x then finish v stack else .fail "in literal"
    | x :: xs => if c == x then .more (.literal xs v) stack else .fail "in literal"

/-- The end of the input: a top-level number in a final state is complete;
anything else is an error, `io.EOF` when nothing but white space was read. -/
def atEOF (m : Mode) (stack : List Frame) : Except JSONError (JSON × List Char) :=
  match stack, m with
  | [], .one raw => .ok (.num (String.mk raw.reverse), [])
  | [], .zero raw => .ok (.num (String.mk raw.reverse), [])
  | [], .dot0 raw => .ok (.num (String.mk raw.reverse), [])
  | [], .exp0 raw => .ok (.num (String.mk raw.reverse), [])
  | [], .beginValue => .error .eof
  | _, _ => .error .unexpectedEOF

/-- The scanner run over the input: the first JSON value and the input left
after it, or the error. -/
def scan : Mode → List Frame → List Char → Except JSONError (JSON × List Char)
  | m, stack, [] => atEOF m stack
  | m, stack, c :: cs =>
    match step m stack c with
    | .more m' stack' => scan m' stack' cs
    | .done v => .ok (v, cs)
    | .doneBefore v => .ok (v, c :: cs)
    | .fail context => .error (.syntaxError context)

/-- The method `(*Decoder).readValue` on a whole body: the first JSON value of
the body and the text after it. -/
def readValue (body : String) : Except JSONError (JSON × List Char) :=
  scan .beginValue [] body.toList

/-- The function `json.Valid`: the whole text is one JSON value, with nothing
but white space around it. -/
def validJSON (text : String) : Bool :=
  match readValue text with
  | .ok (_, rest) => rest.all isSpace
  | .error _ => false

/-! ## JSON: storing the value into the variable `s` of `authenticate` -/

/-- The function `foldRune` of `encoding/json` (simple Unicode case folding to
the smallest rune of the orbit) as far as it can produce an ASCII letter:
ASCII letters go to upper case, the Kelvin sign to `K`, the long s to `S`.
Every other rune folds to a non-ASCII rune and is left as it is, which does
not change whether a folded key equals a folded ASCII field name. -/
def foldRune (c : Char) : Char :=
  if 'a' ≤ c && c ≤ 'z' then Char.ofNat (c.toNat - 32)
  else if c == Char.ofNat 0x212A then 'K'
  else if c == Char.ofNat 0x17F then 'S'
  else c

/-- The function `foldName` of `encoding/json`. -/
def foldName (s : String) : String := String.mk (s.toList.map foldRune)

/-- The field an object key selects: the field with exactly that name, and
otherwise the first field whose folded name equals the folded key. -/
def findField {φ : Type} (fields : List (String × φ)) (key : String) : Option φ :=
  match fields.find? (fun f => f.1 == key) with
  | some f => some f.2
  | none => (fields.find? (fun f => foldName f.1 == foldName key)).map (·.2)

/-- The anonymous struct type of the field `Auth`. -/
structure AuthStruct where
  ClientToken : String := ""
  ClientAccessor : String := ""
  deriving DecidableEq, Repr

/-- The anonymous struct type of the variable `s` of `authenticate`. -/
structure LoginStruct where
  Auth : AuthStruct := {}
  deriving DecidableEq, Repr

/-- The fields of `AuthStruct`, for field lookup. -/
inductive AuthField where
  | ClientToken
  | ClientAccessor
  deriving DecidableEq, Repr

/-- The JSON names of the fields of `AuthStruct`, from their struct tags. -/
def authFields : List (String × AuthField) :=
  [("client_token", .ClientToken), ("accessor", .ClientAccessor)]

/-- The JSON names of the fields of `LoginStruct`. -/
def loginFields : List (String × Unit) := [("auth", ())]

/-- The method `saveError` of the decoder: only the first error is kept. -/
def saveError (saved : Option JSONError) (e : JSONError) : Option JSONError :=
  match saved with
  | some e0 => some e0
  | none => some e

/-- Store a JSON value into a Go `string`: a string is stored, `null` leaves
the target as it is, every other value is a type error. -/
def storeString (cur : String) (saved : Option JSONError) :
    JSON → String × Option JSONError
  | .str s => (s, saved)
  | .null => (cur, saved)
  | .bool _ => (cur, saveError saved (.unmarshalType "bool"))
  | .num _ => (cur, saveError saved (.unmarshalType "number"))
  | .arr _ => (cur, saveError saved (.unmarshalType "array"))
  | .obj _ => (cur, saveError saved (.unmarshalType "object"))

/-- Store one member of the JSON object for `Auth`; a key that selects no
field is skipped. -/
def storeAuthMember (st : AuthStruct × Option JSONError) (m : String × JSON) :
    AuthStruct × Option JSONError :=
  match findField authFields m.1 with
  | some .ClientToken =>
    ({ st.1 with ClientToken := (storeString st.1.ClientToken st.2 m.2).1 },
      (storeString st.1.ClientToken st.2 m.2).2)
  | some .ClientAccessor =>
    ({ st.1 with ClientAccessor := (storeString st.1.ClientAccessor st.2 m.2).1 },
      (storeString st.1.ClientAccessor st.2 m.2).2)
  | none => st

/-- Store a JSON value into the struct `Auth`: the members of an object are
stored in order, `null` leaves the target as it is, every other value is a
type error. -/
def storeAuth (cur : AuthStruct) (saved : Option JSONError) :
    JSON → AuthStruct × Option JSONError
  | .obj members => members.foldl storeAuthMember (cur, saved)
  | .null => (cur, saved)
  | .bool _ => (cur, saveError saved (.unmarshalType "bool"))
  | .num _ => (cur, saveError saved (.unmarshalType "number"))
  | .str _ => (cur, saveError saved (.unmarshalType "string"))
  | .arr _ => (cur, saveError saved (.unmarshalType "array"))

/-- Store one member of the top-level JSON object. -/
def storeLoginMember (st : LoginStruct × Option JSONError) (m : String × JSON) :
    LoginStruct × Option JSONError :=
  match findField loginFields m.1 with
  | some () => ({ Auth := (storeAuth st.1.Auth st.2 m.2).1 }, (storeAuth st.1.Auth st.2 m.2).2)
  | none => st

/-- The method `(*decodeState).unmarshal` for the variable `s`, which starts
with all fields empty: the stored struct and the saved error. -/
def unmarshal : JSON → LoginStruct × Option JSONError
  | .obj members => members.foldl storeLoginMember ({}, none)
  | .null => ({}, none)
  | .bool _ => ({}, some (.unmarshalType "bool"))
  | .num _ => ({}, some (.unmarshalType "number"))
  | .str _ => ({}, some (.unmarshalType "string"))
  | .arr _ => ({}, some (.unmarshalType "array"))

/-- The call `json.NewDecoder(resp.Body).Decode(&s)`: read the first JSON
value of the body, then store it into `s`. -/
def decode (body : String) : Except JSONError LoginStruct :=
  match readValue body with
  | .error e => .error e
  | .ok (v, _) =>
    match unmarshal v with
    | (s, none) => .ok s
    | (_, some e) => .error e

/-! ## `authenticate` -/

/-- The constant `tls.VersionTLS12`. -/
def versionTLS12 : Nat := 0x0303

/-- The value of `tlsClientConfig` in `authenticate` once both `if` statements
have run. -/
def tlsClientConfig (cfg : Config) (pool : CertPool) : TLSConfig :=
  let c0 : TLSConfig := { minVersion := versionTLS12, rootCAs := some pool }
  let c1 : TLSConfig :=
    if cfg.vaultSkipVerify then { c0 with insecureSkipVerify := true } else c0
  if cfg.vaultServerName != "" then { c1 with serverName := cfg.vaultServerName } else c1

/-- The value of `body` in `authenticate`: `fmt.Sprintf` puts both strings into
the format as they are. -/
def requestBody (role jwt : String) : String :=
  "\x7b\"role\": \"" ++ role ++ "\", \"jwt\": \"" ++ jwt ++ "\"\x7d"

/-- The request `authenticate` sends. -/
def loginRequest (cfg : Config) (role jwt : String) : Request :=
  { method := "POST"
    url := cfg.vaultAddr ++ "/v1/auth/" ++ cfg.vaultK8SMountPath ++ "/login"
    contentType := "application/json"
    body := requestBody role jwt }

/-- The part of `authenticate` after `client.Do` has returned a response. -/
def handleResponse (resp : Response) : Outcome (String × String) :=
  if resp.statusCode != 200 then
    .error (.badStatus resp resp.body)
  else
    match decode resp.body with
    | .error err => .error (.wrap (.json err) "failed to read body")
    | .ok s => .ok (s.Auth.ClientToken, s.Auth.ClientAccessor)

/-- The function `authenticate` of `main.go`.  An error result stands for the
Go result `("", "", err)`.  When `http.NewRequest` fails, `req` is nil and
`req.Header.Set`, which comes before the error check, panics. -/
def authenticate (w : World) (cfg : Config) (role jwt : String) :
    Outcome (String × String) :=
  match rootCAs w cfg with
  | .error err => .error err
  | .ok pool =>
    match w.configureTransport (tlsClientConfig cfg pool) with
    | some _ => .error (.new "failed to configure http2")
    | none =>
      match w.newRequestError "POST" (loginRequest cfg role jwt).url with
      | some _ => .panicked "invalid memory address or nil pointer dereference"
      | none =>
        match w.roundTrip (tlsClientConfig cfg pool) (loginRequest cfg role jwt) with
        | .error err => .error (.wrap err "failed to login")
        | .ok resp => handleResponse resp

/-! ## `main` and the file helpers -/

/-- The function `strconv.ParseBool`. -/
def parseBool (str : String) : Except GoError Bool :=
  if str ∈ ["1", "t", "T", "true", "TRUE", "True"] then .ok true
  else if str ∈ ["0", "f", "F", "false", "FALSE", "False"] then .ok false
  else .error (.sys ("strconv.ParseBool: parsing " ++ str.quote ++ ": invalid syntax"))

/-- The function `unicode.IsSpace`. -/
def unicodeIsSpace (c : Char) : Bool :=
  let n := c.toNat
  (9 ≤ n && n ≤ 13) || n == 0x20 || n == 0x85 || n == 0xA0 || n == 0x1680
    || (0x2000 ≤ n && n ≤ 0x200A) || n == 0x2028 || n == 0x2029 || n == 0x202F
    || n == 0x205F || n == 0x3000

/-- The function `bytes.TrimSpace`. -/
def trimSpace (s : String) : String :=
  String.mk ((s.toList.dropWhile unicodeIsSpace).reverse.dropWhile unicodeIsSpace).reverse

/-- The function `readJwtToken` of `main.go`. -/
def readJwtToken (w : World) (path : String) : Except GoError String :=
  match w.readFile path with
  | .error err => .error (.wrap err "failed to read jwt token")
  | .ok data => .ok (trimSpace data)

/-- The function `saveToken` of `main.go`. -/
def saveToken (w : World) (token dest : String) : Except GoError Unit :=
  match w.writeFile dest token 0o600 with
  | .error err => .error (.wrap err "failed to save token")
  | .ok () => .ok ()

/-- The function `saveAccessor` of `main.go`. -/
def saveAccessor (w : World) (accessor dest : String) : Except GoError Unit :=
  match w.writeFile dest accessor 0o644 with
  | .error err => .error (.wrap err "failed to save token")
  | .ok () => .ok ()

/-- The two helpers that write a credential file. -/
inductive Saver where
  | saveToken
  | saveAccessor
  deriving DecidableEq, Repr

/-- One call of a helper that writes a credential file: which helper, the
destination, the content, and whether `ioutil.WriteFile` succeeded. -/
structure FileWrite where
  saver : Saver
  dest : String
  data : String
  succeeded : Bool
  deriving DecidableEq, Repr

/-- What a run of the program leaves behind: the exit status, the log lines,
and the calls of `saveToken` and `saveAccessor` in the order they were made. -/
structure Run where
  exitCode : Nat
  log : List String
  writes : List FileWrite
  deriving DecidableEq, Repr

/-- The call `log.Fatal(v)`: print, then `os.Exit(1)`. -/
def fatal (msg : String) (writes : List FileWrite) : Run :=
  { exitCode := 1, log := [msg], writes := writes }

/-- The value of an environment variable, or a default when it is empty. -/
def getenvOr (w : World) (name dflt : String) : String :=
  if w.getenv name == "" then dflt else w.getenv name

/-- The value of `vaultSkipVerify` after lines 43 to 49 of `main`: the variable
keeps its zero value unless `VAULT_SKIP_VERIFY` is set. -/
def loadSkipVerify (w : World) : Except GoError Bool :=
  if w.getenv "VAULT_SKIP_VERIFY" != "" then
    match parseBool (w.getenv "VAULT_SKIP_VERIFY") with
    | .error err => .error err
    | .ok b => .ok b
  else .ok false

/-- The package-level variables as `main` sets them, given the value of
`vaultSkipVerify`. -/
def loadConfig (w : World) (skipVerify : Bool) : Config :=
  { vaultAddr := getenvOr w "VAULT_ADDR" "https://127.0.0.1:8200"
    vaultCaPem := w.getenv "VAULT_CAPEM"
    vaultCaCert := w.getenv "VAULT_CACERT"
    vaultCaPath := w.getenv "VAULT_CAPATH"
    vaultSkipVerify := skipVerify
    vaultServerName := w.getenv "VAULT_TLS_SERVER_NAME"
    vaultK8SMountPath := getenvOr w "VAULT_K8S_MOUNT_PATH" "kubernetes" }

/-- The function `main` of `main.go` from line 56 on, once the package-level
variables are set. -/
def mainWith (w : World) (cfg : Config) : Run :=
  let role := w.getenv "VAULT_ROLE"
  if role == "" then fatal "missing VAULT_ROLE" []
  else
    let tokenDest := getenvOr w "TOKEN_DEST_PATH" "/.vault-token"
    let accessorDest := getenvOr w "ACCESSOR_DEST_PATH" "/.vault-accessor"
    let saPath := getenvOr w "SERVICE_ACCOUNT_PATH"
      "/var/run/secrets/kubernetes.io/serviceaccount/token"
    match readJwtToken w saPath with
    | .error err => fatal err.message []
    | .ok jwt =>
      match authenticate w cfg role jwt with
      | .error err => fatal err.message []
      | .panicked msg => { exitCode := 2, log := ["panic: " ++ msg], writes := [] }
      | .ok (token, accessor) =>
        match saveToken w token tokenDest with
        | .error err => fatal err.message [⟨.saveToken, tokenDest, token, false⟩]
        | .ok () =>
          match saveAccessor w accessor accessorDest with
          | .error err =>
            fatal err.message
              [⟨.saveToken, tokenDest, token, true⟩,
               ⟨.saveAccessor, accessorDest, accessor, false⟩]
          | .ok () =>
            { exitCode := 0
              log := ["successfully stored vault token at " ++ tokenDest,
                      "successfully stored vault accessor at " ++ accessorDest]
              writes := [⟨.saveToken, tokenDest, token, true⟩,
                         ⟨.saveAccessor, accessorDest, accessor, true⟩] }

/-- The function `main` of `main.go`. -/
def main (w : World) : Run :=
  match loadSkipVerify w with
  | .error err => fatal err.message []
  | .ok skipVerify => mainWith w (loadConfig w skipVerify)

/-! ## Vocabulary for the statements -/

mutual
/-- The paths `walk` hands to the callback as non-directories, in the order of
the walk, for a tree in which every `os.Lstat` and every listing succeeds. -/
def filesOf (w : World) (path : String) : FSNode → List String
  | .file => [path]
  | .dir entries => filesOfEntries w path entries
  | .unreadableDir _ => []
  | .noStat _ => []
/-- The files below the entries of a directory. -/
def filesOfEntries (w : World) (path : String) : FSEntries → List String
  | .nil => []
  | .cons name node rest =>
    filesOf w (w.join path name) node ++ filesOfEntries w path rest
end

mutual
/-- The tree consists of files and listable directories only. -/
def plainTree : FSNode → Bool
  | .file => true
  | .dir entries => plainEntries entries
  | .unreadableDir _ => false
  | .noStat _ => false
/-- All entries are plain trees. -/
def plainEntries : FSEntries → Bool
  | .nil => true
  | .cons _ node rest => plainTree node && plainEntries rest
end

/-- The function `loadCertFile` applied to a list of paths in turn, stopping at
the first error. -/
def loadFiles (w : World) : CertPool → List String → Except GoError CertPool
  | pool, [] => .ok pool
  | pool, q :: qs =>
    match loadCertFile w pool q with
    | .error e => .error e
    | .ok pool' => loadFiles w pool' qs

/-- The call `authenticate(role, jwt)` gets as far as `client.Do` and receives
the response `resp`: the trust pool is built, the transport and the request
are set up without error, and the round trip returns `resp`. -/
def Receives (w : World) (cfg : Config) (role jwt : String) (resp : Response) : Prop :=
  ∃ pool, rootCAs w cfg = .ok pool
    ∧ w.configureTransport (tlsClientConfig cfg pool) = none
    ∧ w.newRequestError "POST" (loginRequest cfg role jwt).url = none
    ∧ w.roundTrip (tlsClientConfig cfg pool) (loginRequest cfg role jwt) = .ok resp

/-- A hexadecimal digit, in lower case. -/
def hexDigit (n : Nat) : Char :=
  if n < 10 then Char.ofNat (48 + n) else Char.ofNat (87 + n)

/-- One character inside a JSON string literal, written the way a server may
write it: the double quote and the backslash get a backslash, a control
character becomes `\\u00XX`, every other character stands for itself. -/
def quoteChar (c : Char) : List Char :=
  if c == '"' then ['\\', '"']
  else if c == '\\' then ['\\', '\\']
  else if c.toNat < 0x20 then
    ['\\', 'u', '0', '0', hexDigit (c.toNat / 16), hexDigit (c.toNat % 16)]
  else [c]

/-- The text between the quotes of a JSON string literal for the given
characters. -/
def quoteChars : List Char → List Char
  | [] => []
  | c :: cs => quoteChar c ++ quoteChars cs

/-- The character needs no escape inside a JSON string literal. -/
def plainChar (c : Char) : Bool :=
  c != '"' && c != '\\' && !(c.toNat < 0x20)

/-! ## A concrete world for the examples -/

/-- A toy PEM parser: three known certificates and a bundle. -/
def demoPemCerts (pem : String) : List Certificate :=
  if pem == "PEM(A)" then ["A"]
  else if pem == "PEM(B)" then ["B"]
  else if pem == "PEM(C)" then ["C"]
  else if pem == "PEM(A)PEM(B)" then ["A", "B"]
  else []

/-- The files of the example file system. -/
def demoReadFile (p : String) : Except GoError String :=
  if p == "/ca/a.pem" then .ok "PEM(A)"
  else if p == "/ca/sub/b.pem" then .ok "PEM(B)"
  else if p == "/ca/sub/deep/c.pem" then .ok "PEM(C)"
  else if p == "/dup/x.pem" then .ok "PEM(A)"
  else if p == "/dup/y.pem" then .ok "PEM(A)"
  else if p == "/bad/a.pem" then .ok "PEM(A)"
  else if p == "/bad/sub/junk.pem" then .ok "not a certificate"
  else if p == "/bad/z.pem" then .ok "PEM(B)"
  else if p == "/etc/ca.pem" then .ok "PEM(B)"
  else if p == "/sa/token" then .ok " jwt-1\n"
  else .error (.sys ("open " ++ p ++ ": no such file or directory"))

/-- The directories of the example file system. -/
def demoLstat (p : String) : FSNode :=
  if p == "/ca" then
    .dir (.cons "a.pem" .file
      (.cons "empty" (.dir .nil)
        (.cons "sub" (.dir (.cons "b.pem" .file
          (.cons "deep" (.dir (.cons "c.pem" .file .nil)) .nil))) .nil)))
  else if p == "/dup" then .dir (.cons "x.pem" .file (.cons "y.pem" .file .nil))
  else if p == "/bad" then
    .dir (.cons "a.pem" .file
      (.cons "sub" (.dir (.cons "junk.pem" .file .nil))
        (.cons "z.pem" .file .nil)))
  else if p == "/empty" then .dir .nil
  else .noStat (.sys ("lstat " ++ p ++ ": no such file or directory"))

/-- The example world: the environment, the answer of the server and the
destinations that cannot be written are left open. -/
def demoWorld (env : String → String) (answer : Except GoError Response)
    (readOnly : List String) : World :=
  { getenv := env
    readFile := demoReadFile
    writeFile := fun dest _ _ =>
      if dest ∈ readOnly then .error (.sys ("open " ++ dest ++ ": read-only file system"))
      else .ok ()
    lstat := demoLstat
    join := fun dir name => dir ++ "/" ++ name
    pemCerts := demoPemCerts
    systemCertPool := .ok ["SYS"]
    configureTransport := fun _ => none
    newRequestError := fun _ _ => none
    roundTrip := fun _ _ => answer }

/-- An environment that sets the role and the service-account path. -/
def demoEnv (name : String) : String :=
  if name == "VAULT_ROLE" then "web"
  else if name == "SERVICE_ACCOUNT_PATH" then "/sa/token"
  else ""

/-- A response with the given status and body. -/
def demoResponse (status : Nat) (body : String) : Response :=
  { statusCode := status, body := body, goSyntax := "&http.Response\x7b...\x7d" }

/-- The example world with no server answer, for statements about trust
anchors. -/
def demoFS : World := demoWorld demoEnv (.error (.sys "connection refused")) []

/-- A login response as Vault sends it. -/
def demoLoginBody : String :=
  "\x7b\"auth\":\x7b\"client_token\":\"tok-A\",\"accessor\":\"acc-B\"\x7d\x7d"

/-- The example world in which the server answers with the given status and
body and every destination can be written. -/
def demoServer (status : Nat) (body : String) : World :=
  demoWorld demoEnv (.ok (demoResponse status body)) []

theorem rootCAs_pem (w : World) (cfg : Config) (h : cfg.vaultCaPem ≠ "") :
    rootCAs w cfg = loadCert w newCertPool cfg.vaultCaPem := by
  unfold rootCAs
  simp only [bne_iff_ne, ne_eq, h, not_false_eq_true, ↓reduceIte]
  cases loadCert w newCertPool cfg.vaultCaPem <;> rfl

theorem rootCAs_file (w : World) (cfg : Config) (h1 : cfg.vaultCaPem = "")
    (h2 : cfg.vaultCaCert ≠ "") :
    rootCAs w cfg = loadCertFile w newCertPool cfg.vaultCaCert := by
  unfold rootCAs
  simp only [bne_iff_ne, ne_eq, h1, h2, not_true_eq_false, not_false_eq_true, ↓reduceIte]
  cases loadCertFile w newCertPool cfg.vaultCaCert <;> rfl

theorem rootCAs_folder (w : World) (cfg : Config) (h1 : cfg.vaultCaPem = "")
    (h2 : cfg.vaultCaCert = "") (h3 : cfg.vaultCaPath ≠ "") :
    rootCAs w cfg = loadCertFolder w newCertPool cfg.vaultCaPath := by
  unfold rootCAs
  simp only [bne_iff_ne, ne_eq, h1, h2, h3, not_true_eq_false, not_false_eq_true, ↓reduceIte]
  cases loadCertFolder w newCertPool cfg.vaultCaPath <;> rfl

theorem rootCAs_system (w : World) (cfg : Config) (h1 : cfg.vaultCaPem = "")
    (h2 : cfg.vaultCaCert = "") (h3 : cfg.vaultCaPath = "") :
    rootCAs w cfg =
      match w.systemCertPool with
      | .error err => .error (.wrap err "failed to load system certs")
      | .ok pool => .ok pool := by
  unfold rootCAs
  simp only [bne_iff_ne, ne_eq, h1, h2, h3, not_true_eq_false, ↓reduceIte]

theorem loadCert_congr (w w' : World) (h : w'.pemCerts = w.pemCerts) (pool : CertPool)
    (pem : String) : loadCert w' pool pem = loadCert w pool pem := by
  simp only [loadCert, appendCertsFromPEM, h]

theorem loadCertFile_congr (w w' : World) (h : w'.pemCerts = w.pemCerts)
    (hr : w'.readFile = w.readFile) (pool : CertPool) (p : String) :
    loadCertFile w' pool p = loadCertFile w pool p := by
  simp only [loadCertFile, hr, loadCert_congr w w' h]

mutual
theorem walk_congr (w w' : World) (h : w'.pemCerts = w.pemCerts)
    (hr : w'.readFile = w.readFile) (hj : w'.join = w.join) (pool : CertPool)
    (path : String) : (node : FSNode) → walk w' pool path node = walk w pool path node
  | .file => by simp only [walk, walkFn, loadCertFile_congr w w' h hr]
  | .noStat _ => by simp only [walk, walkFn]
  | .unreadableDir _ => by simp only [walk, walkFn]
  | .dir entries => by
    simp only [walk, walkFn]
    exact walkEntries_congr w w' h hr hj pool path entries
theorem walkEntries_congr (w w' : World) (h : w'.pemCerts = w.pemCerts)
    (hr : w'.readFile = w.readFile) (hj : w'.join = w.join) (pool : CertPool)
    (path : String) :
    (entries : FSEntries) → walkEntries w' pool path entries = walkEntries w pool path entries
  | .nil => by simp only [walkEntries]
  | .cons name node rest => by
    simp only [walkEntries, hj, walk_congr w w' h hr hj pool (w.join path name) node]
    cases walk w pool (w.join path name) node with
    | error e => rfl
    | ok pool' => exact walkEntries_congr w w' h hr hj pool' path rest
end

theorem loadCertFolder_congr (w w' : World) (h : w'.pemCerts = w.pemCerts)
    (hr : w'.readFile = w.readFile) (hj : w'.join = w.join) (hl : w'.lstat = w.lstat)
    (pool : CertPool) (p : String) :
    loadCertFolder w' pool p = loadCertFolder w pool p := by
  simp only [loadCertFolder, filepathWalk, hl, walk_congr w w' h hr hj]

theorem loadFiles_append (w : World) (pool : CertPool) (xs ys : List String) :
    loadFiles w pool (xs ++ ys) =
      match loadFiles w pool xs with
      | .error e => .error e
      | .ok pool' => loadFiles w pool' ys := by
  induction xs generalizing pool with
  | nil => rfl
  | cons x xs ih =>
    simp only [List.cons_append, loadFiles]
    cases loadCertFile w pool x with
    | error e => rfl
    | ok pool' => exact ih pool'

mutual
theorem walk_plain (w : World) (pool : CertPool) (path : String) :
    (node : FSNode) → plainTree node = true →
      walk w pool path node = loadFiles w pool (filesOf w path node)
  | .file, _ => by
    simp only [walk, walkFn, filesOf, loadFiles]
    cases loadCertFile w pool path <;> rfl
  | .noStat _, h => by simp [plainTree] at h
  | .unreadableDir _, h => by simp [plainTree] at h
  | .dir entries, h => by
    simp only [walk, walkFn, filesOf]
    exact walkEntries_plain w pool path entries (by simpa [plainTree] using h)
theorem walkEntries_plain (w : World) (pool : CertPool) (path : String) :
    (entries : FSEntries) → plainEntries entries = true →
      walkEntries w pool path entries = loadFiles w pool (filesOfEntries w path entries)
  | .nil, _ => by simp only [walkEntries, filesOfEntries, loadFiles]
  | .cons name node rest, h => by
    have h' : plainTree node = true ∧ plainEntries rest = true := by
      simpa [plainEntries] using h
    simp only [walkEntries, filesOfEntries, loadFiles_append,
      walk_plain w pool (w.join path name) node h'.1]
    cases loadFiles w pool (filesOf w (w.join path name) node) with
    | error e => rfl
    | ok pool' => exact walkEntries_plain w pool' path rest h'.2
end

/-- C1: `rootCAs` returns exactly the result of the loader of the first
non-empty setting in the order `vaultCaPem`, `vaultCaCert`, `vaultCaPath`, and
the system pool (its error wrapped) when all three are empty.  Sources of lower
precedence are not consulted: the result stays the same in every world and
configuration that agree on what the selected loader reads, whatever the
other settings, the file system or the system pool are. -/
theorem rootCAs_precedence (w : World) (cfg : Config) :
    (cfg.vaultCaPem ≠ "" →
      rootCAs w cfg = loadCert w newCertPool cfg.vaultCaPem ∧
      ∀ (w' : World) (cfg' : Config), w'.pemCerts = w.pemCerts →
        cfg'.vaultCaPem = cfg.vaultCaPem → rootCAs w' cfg' = rootCAs w cfg) ∧
    (cfg.vaultCaPem = "" → cfg.vaultCaCert ≠ "" →
      rootCAs w cfg = loadCertFile w newCertPool cfg.vaultCaCert ∧
      ∀ (w' : World) (cfg' : Config), w'.pemCerts = w.pemCerts →
        w'.readFile = w.readFile → cfg'.vaultCaPem = "" →
        cfg'.vaultCaCert = cfg.vaultCaCert → rootCAs w' cfg' = rootCAs w cfg) ∧
    (cfg.vaultCaPem = "" → cfg.vaultCaCert = "" → cfg.vaultCaPath ≠ "" →
      rootCAs w cfg = loadCertFolder w newCertPool cfg.vaultCaPath ∧
      ∀ (w' : World) (cfg' : Config), w'.pemCerts = w.pemCerts →
        w'.readFile = w.readFile → w'.join = w.join → w'.lstat = w.lstat →
        cfg'.vaultCaPem = "" → cfg'.vaultCaCert = "" →
        cfg'.vaultCaPath = cfg.vaultCaPath → rootCAs w' cfg' = rootCAs w cfg) ∧
    (cfg.vaultCaPem = "" → cfg.vaultCaCert = "" → cfg.vaultCaPath = "" →
      (∀ pool, w.systemCertPool = .ok pool → rootCAs w cfg = .ok pool) ∧
      (∀ err, w.systemCertPool = .error err →
        rootCAs w cfg = .error (.wrap err "failed to load system certs"))) := by
  refine ⟨?_, ?_, ?_, ?_⟩
  · intro h
    refine ⟨rootCAs_pem w cfg h, ?_⟩
    intro w' cfg' hp hc
    rw [rootCAs_pem w cfg h, rootCAs_pem w' cfg' (hc ▸ h), hc, loadCert_congr w w' hp]
  · intro h1 h2
    refine ⟨rootCAs_file w cfg h1 h2, ?_⟩
    intro w' cfg' hp hr hc1 hc2
    rw [rootCAs_file w cfg h1 h2, rootCAs_file w' cfg' hc1 (hc2 ▸ h2), hc2,
      loadCertFile_congr w w' hp hr]
  · intro h1 h2 h3
    refine ⟨rootCAs_folder w cfg h1 h2 h3, ?_⟩
    intro w' cfg' hp hr hj hl hc1 hc2 hc3
    rw [rootCAs_folder w cfg h1 h2 h3, rootCAs_folder w' cfg' hc1 hc2 (hc3 ▸ h3), hc3,
      loadCertFolder_congr w w' hp hr hj hl]
  · intro h1 h2 h3
    rw [rootCAs_system w cfg h1 h2 h3]
    constructor
    · intro pool hs; rw [hs]
    · intro err hs; rw [hs]

/-- C1, at concrete settings: an inline PEM that does not parse fails although
the CA file and the CA directory are valid; a CA file wins over a directory;
a directory wins over the system pool; with nothing set the system pool is
returned. -/
theorem rootCAs_precedence_witness :
    rootCAs demoFS { vaultCaPem := "junk", vaultCaCert := "/etc/ca.pem", vaultCaPath := "/ca" }
        = .error (.new "failed to parse PEM") ∧
    rootCAs demoFS { vaultCaCert := "/etc/ca.pem", vaultCaPath := "/bad" } = .ok ["B"] ∧
    rootCAs demoFS { vaultCaPath := "/ca" } = .ok ["A", "B", "C"] ∧
    rootCAs demoFS {} = .ok ["SYS"] := by
  refine ⟨?_, ?_, ?_, ?_⟩
  · rw [((rootCAs_precedence demoFS _).1 (by decide)).1]; rfl
  · rw [((rootCAs_precedence demoFS _).2.1 (by decide) (by decide)).1]; rfl
  · rw [((rootCAs_precedence demoFS _).2.2.1 (by decide) (by decide) (by decide)).1]; rfl
  · exact ((rootCAs_precedence demoFS _).2.2.2 (by decide) (by decide) (by decide)).1 _ rfl

theorem hexValue_hexDigit : ∀ n < 16, hexValue (hexDigit n) = some n := by decide

theorem quoteChar_plain (c : Char) (h : plainChar c = true) : quoteChar c = [c] := by
  simp only [plainChar, Bool.and_eq_true, bne_iff_ne, ne_eq, Bool.not_eq_true',
    decide_eq_false_iff_not] at h
  simp [quoteChar, h.1.1, h.1.2, h.2]

theorem scan_escU_two (x : Char) (raw : List Char) (stack : List Frame) (cs : List Char)
    (hx : (hexValue x).isSome = true) :
    scan (.inStringEscU raw 2) stack (x :: cs) = scan (.inStringEscU (x :: raw) 3) stack cs := by
  simp [scan, step, hx]

theorem scan_escU_three (x : Char) (raw : List Char) (stack : List Frame) (cs : List Char)
    (hx : (hexValue x).isSome = true) :
    scan (.inStringEscU raw 3) stack (x :: cs) = scan (.inString (x :: raw)) stack cs := by
  simp [scan, step, hx]

theorem scan_inString_quoteChar (c : Char) (raw : List Char) (stack : List Frame)
    (rest : List Char) :
    scan (.inString raw) stack (quoteChar c ++ rest) =
      scan (.inString ((quoteChar c).reverse ++ raw)) stack rest := by
  unfold quoteChar
  by_cases h1 : c = '"'
  · subst h1; rfl
  · by_cases h2 : c = '\\'
    · subst h2; rfl
    · by_cases h3 : c.toNat < 0x20
      · have ha : (hexValue (hexDigit (c.toNat / 16))).isSome = true := by
          rw [hexValue_hexDigit _ (by omega)]; rfl
        have hb : (hexValue (hexDigit (c.toNat % 16))).isSome = true := by
          rw [hexValue_hexDigit _ (by omega)]; rfl
        have hpre : ∀ cs, scan (.inString raw) stack ('\\' :: 'u' :: '0' :: '0' :: cs) =
            scan (.inStringEscU ('0' :: '0' :: 'u' :: '\\' :: raw) 2) stack cs := fun _ => rfl
        simp only [beq_iff_eq, h1, h2, h3, ↓reduceIte, List.cons_append, List.nil_append,
          hpre, scan_escU_two _ _ _ _ ha, scan_escU_three _ _ _ _ hb, List.reverse_cons,
          List.reverse_nil, List.append_assoc]
      · simp [h1, h2, h3, scan, step]

theorem scan_inString_quoteChars (s raw : List Char) (stack : List Frame)
    (rest : List Char) :
    scan (.inString raw) stack (quoteChars s ++ rest) =
      scan (.inString ((quoteChars s).reverse ++ raw)) stack rest := by
  induction s generalizing raw with
  | nil => rfl
  | cons c cs ih =>
    simp only [quoteChars, List.append_assoc, scan_inString_quoteChar, ih, List.reverse_append]

theorem unquoteAux_quoteChar (c : Char) (rest : List Char) :
    unquoteAux 0 (quoteChar c ++ rest) = (unquoteAux 0 rest).map (c :: ·) := by
  unfold quoteChar
  by_cases h1 : c = '"'
  · subst h1; rfl
  · by_cases h2 : c = '\\'
    · subst h2; rfl
    · by_cases h3 : c.toNat < 0x20
      · have ha := hexValue_hexDigit (c.toNat / 16) (by omega)
        have hb := hexValue_hexDigit (c.toNat % 16) (by omega)
        have h0 : hexValue '0' = some 0 := by decide
        have hn : c.toNat / 16 * 16 + c.toNat % 16 = c.toNat := by omega
        have hs : isSurrogate c.toNat = false := by
          simp only [isSurrogate, Bool.and_eq_false_imp, decide_eq_true_eq]
          intro h; omega
        have hskip : ∀ x y z t, unquoteAux 4 (x :: y :: z :: t :: rest) = unquoteAux 0 rest :=
          fun _ _ _ _ => rfl
        simp [h1, h2, h3, unquoteAux, getu4, ha, hb, h0, hn, hs, hskip, Char.ofNat_toNat]
      · have h3' : ¬ c.toNat < 32 := h3
        rw [unquoteAux.eq_def]
        simp [h1, h2, h3']

theorem unquoteAux_quoteChars (s rest : List Char) :
    unquoteAux 0 (quoteChars s ++ rest) = (unquoteAux 0 rest).map (s ++ ·) := by
  induction s with
  | nil => simp [quoteChars]
  | cons c cs ih =>
    simp only [quoteChars, List.append_assoc, unquoteAux_quoteChar, ih, Option.map_map]
    rfl

theorem unquote_quoteChars (s : String) : unquote (quoteChars s.toList) = some s := by
  have h := unquoteAux_quoteChars s.toList []
  simp only [List.append_nil] at h
  have h0 : unquoteAux 0 ([] : List Char) = some [] := rfl
  rw [unquote, h, h0]
  simp

theorem scan_close_value_string (s : String) (done : List (String × JSON)) (key : String)
    (stack : List Frame) (cs : List Char) :
    scan (.inString ((quoteChars s.toList).reverse ++ [])) (.objValue done key :: stack)
        ('"' :: cs) =
      scan .endValue (.objNext ((key, .str s) :: done) :: stack) cs := by
  have hu : unquote (quoteChars s.data) = some s := unquote_quoteChars s
  simp [scan, step, finishString, hu, finish, attach]

theorem quoteChars_plain (s : List Char) (h : ∀ c ∈ s, plainChar c = true) :
    quoteChars s = s := by
  induction s with
  | nil => rfl
  | cons c cs ih =>
    simp only [quoteChars, quoteChar_plain c (h c (List.mem_cons_self c cs)),
      ih (fun c' h' => h c' (List.mem_cons_of_mem c h')), List.singleton_append]

theorem readValue_requestBody_plain (role jwt : String)
    (hrole : ∀ c ∈ role.toList, plainChar c = true)
    (hjwt : ∀ c ∈ jwt.toList, plainChar c = true) :
    readValue (requestBody role jwt) = .ok (.obj [("role", .str role), ("jwt", .str jwt)], []) := by
  have h1 : ∀ cs, scan .beginValue [] ("\x7b\"role\": \"".toList ++ cs) =
      scan (.inString []) [.objValue [] "role"] cs := fun _ => rfl
  have h2 : ∀ cs, scan .endValue [.objNext [("role", .str role)]] (", \"jwt\": \"".toList ++ cs) =
      scan (.inString []) [.objValue [("role", .str role)] "jwt"] cs := fun _ => rfl
  have h3 : scan .endValue [.objNext [("jwt", .str jwt), ("role", .str role)]] "\x7d".toList =
      .ok (.obj [("role", .str role), ("jwt", .str jwt)], []) := rfl
  have hmid : ∀ cs, "\", \"jwt\": \"".toList ++ cs = '"' :: (", \"jwt\": \"".toList ++ cs) :=
    fun _ => rfl
  have hpost : "\"\x7d".toList = '"' :: "\x7d".toList := rfl
  have hlist : (requestBody role jwt).toList =
      "\x7b\"role\": \"".toList ++ (quoteChars role.toList ++ ("\", \"jwt\": \"".toList
        ++ (quoteChars jwt.toList ++ "\"\x7d".toList))) := by
    rw [quoteChars_plain _ hrole, quoteChars_plain _ hjwt]
    simp [requestBody, String.toList, String.data_append]
  rw [readValue, hlist, h1, scan_inString_quoteChars, hmid, scan_close_value_string, h2,
    scan_inString_quoteChars, hpost, scan_close_value_string, h3]

/-! ## Claims about `authenticate` -/

theorem authenticate_of_receives (w : World) (cfg : Config) (role jwt : String)
    (resp : Response) (h : Receives w cfg role jwt resp) :
    authenticate w cfg role jwt = handleResponse resp := by
  obtain ⟨pool, h1, h2, h3, h4⟩ := h
  simp only [authenticate, h1, h2, h3, h4]

/-- C3: when `authenticate` receives a response whose status is not 200, it
returns the error built from the response, which holds the status code, and
from the whole body, whatever the body is; the decoder plays no part in the
result, which has this form for every body. -/
theorem authenticate_rejects_status (w : World) (cfg : Config) (role jwt : String)
    (resp : Response) (hrecv : Receives w cfg role jwt resp)
    (hstatus : resp.statusCode ≠ 200) :
    authenticate w cfg role jwt = .error (.badStatus resp resp.body) ∧
    (GoError.badStatus resp resp.body).message =
      "failed to get successful response: " ++ resp.goSyntax ++ ", " ++ resp.body ∧
    ∀ body : String,
      handleResponse { resp with body := body }
        = .error (.badStatus { resp with body := body } body) := by
  rw [authenticate_of_receives w cfg role jwt resp hrecv]
  refine ⟨?_, rfl, ?_⟩
  · simp [handleResponse, hstatus]
  · intro body
    simp [handleResponse, hstatus]

/-- C3, at status 403, once with a body that is not JSON and once with a body
that is a valid login document. -/
theorem authenticate_rejects_status_witness :
    authenticate (demoServer 403 "permission denied") {} "web" "jwt-1"
      = .error (.badStatus (demoResponse 403 "permission denied") "permission denied") ∧
    authenticate (demoServer 403 demoLoginBody) {} "web" "jwt-1"
      = .error (.badStatus (demoResponse 403 demoLoginBody) demoLoginBody) :=
  ⟨(authenticate_rejects_status (demoServer 403 "permission denied") {} "web" "jwt-1"
      (demoResponse 403 "permission denied") ⟨["SYS"], rfl, rfl, rfl, rfl⟩ (by decide)).1,
    (authenticate_rejects_status (demoServer 403 demoLoginBody) {} "web" "jwt-1"
      (demoResponse 403 demoLoginBody) ⟨["SYS"], rfl, rfl, rfl, rfl⟩ (by decide)).1⟩

theorem tlsClientConfig_eq (cfg : Config) (pool : CertPool) :
    tlsClientConfig cfg pool =
      { minVersion := versionTLS12, rootCAs := some pool,
        insecureSkipVerify := cfg.vaultSkipVerify, serverName := cfg.vaultServerName } := by
  unfold tlsClientConfig
  by_cases hn : cfg.vaultServerName = "" <;> cases hs : cfg.vaultSkipVerify <;> simp [hn]

/-- C10: once `rootCAs` has returned a pool and the transport and the request
are set up, `authenticate` sends its request over the TLS configuration
`tlsClientConfig`, whose minimum version is TLS 1.2, whose root CAs are the
pool of `rootCAs`, which skips verification exactly when `vaultSkipVerify` is
true, and whose server name is `vaultServerName` when that is non-empty and
unset otherwise.  When `VAULT_SKIP_VERIFY` is unset, `main` runs with
`vaultSkipVerify` false, so verification is not skipped. -/
theorem authenticate_tls_config (w : World) (cfg : Config) (role jwt : String)
    (pool : CertPool) (hroot : rootCAs w cfg = .ok pool)
    (htransport : w.configureTransport (tlsClientConfig cfg pool) = none)
    (hrequest : w.newRequestError "POST" (loginRequest cfg role jwt).url = none) :
    (authenticate w cfg role jwt =
      match w.roundTrip (tlsClientConfig cfg pool) (loginRequest cfg role jwt) with
      | .error err => .error (.wrap err "failed to login")
      | .ok resp => handleResponse resp) ∧
    (tlsClientConfig cfg pool).minVersion = versionTLS12 ∧
    versionTLS12 = 0x0303 ∧
    (tlsClientConfig cfg pool).rootCAs = some pool ∧
    ((tlsClientConfig cfg pool).insecureSkipVerify = true ↔ cfg.vaultSkipVerify = true) ∧
    (cfg.vaultServerName ≠ "" →
      (tlsClientConfig cfg pool).serverName = cfg.vaultServerName) ∧
    (cfg.vaultServerName = "" → (tlsClientConfig cfg pool).serverName = "") ∧
    (w.getenv "VAULT_SKIP_VERIFY" = "" →
      loadSkipVerify w = .ok false ∧
      main w = mainWith w (loadConfig w false) ∧
      (loadConfig w false).vaultSkipVerify = false ∧
      ∀ pool', (tlsClientConfig (loadConfig w false) pool').insecureSkipVerify = false) := by
  have hcfg := tlsClientConfig_eq cfg pool
  refine ⟨?_, ?_, rfl, ?_, ?_, ?_, ?_, ?_⟩
  · simp only [authenticate, hroot, htransport, hrequest]
  · rw [hcfg]
  · rw [hcfg]
  · rw [hcfg]
  · intro _
    rw [hcfg]
  · intro hn
    rw [hcfg, hn]
  · intro hunset
    have hload : loadSkipVerify w = .ok false := by
      simp [loadSkipVerify, hunset]
    refine ⟨hload, ?_, rfl, ?_⟩
    · simp only [main, hload]
    · intro pool'
      rw [tlsClientConfig_eq]
      rfl

/-- C10, at a concrete configuration with a server name and with
`VAULT_SKIP_VERIFY` unset. -/
theorem authenticate_tls_config_witness :
    tlsClientConfig { vaultServerName := "vault.internal" } ["SYS"] =
      { minVersion := 0x0303, rootCAs := some ["SYS"], insecureSkipVerify := false,
        serverName := "vault.internal" } ∧
    (tlsClientConfig { vaultServerName := "vault.internal" } ["SYS"]).minVersion = versionTLS12 ∧
    loadSkipVerify (demoServer 200 demoLoginBody) = .ok false :=
  ⟨by decide,
   (authenticate_tls_config (demoServer 200 demoLoginBody)
      { vaultServerName := "vault.internal" } "web" "jwt-1" ["SYS"] rfl rfl rfl).2.1,
   ((authenticate_tls_config (demoServer 200 demoLoginBody)
      { vaultServerName := "vault.internal" } "web" "jwt-1" ["SYS"] rfl rfl rfl).2.2.2.2.2.2.2
        rfl).1⟩

/-! ## The request body -/

/-- C5, the code at inputs with special characters: a role with a double quote
gives a body that is not JSON; a role with a backslash gives a body that is
JSON but whose `role` member is another string; a role can add members of
its own.  For a role and a token without special characters the body is the
expected document. -/
theorem requestBody_not_escaped :
    requestBody "a\"b" "t" = "\x7b\"role\": \"a\"b\", \"jwt\": \"t\"\x7d" ∧
    validJSON (requestBody "a\"b" "t") = false ∧
    readValue (requestBody "a\\b" "t")
      = .ok (.obj [("role", .str (String.mk ['a', Char.ofNat 8])), ("jwt", .str "t")], []) ∧
    readValue (requestBody "x\", \"role\": \"admin" "t")
      = .ok (.obj [("role", .str "x"), ("role", .str "admin"), ("jwt", .str "t")], []) ∧
    requestBody "web" "jwt-1" = "\x7b\"role\": \"web\", \"jwt\": \"jwt-1\"\x7d" ∧
    readValue (requestBody "web" "jwt-1")
      = .ok (.obj [("role", .str "web"), ("jwt", .str "jwt-1")], []) := by
  refine ⟨by decide, by decide, rfl, rfl, by decide, rfl⟩

/-! ## Credential files -/

end VaultAuth
